import Mathlib

/-!
Verification of `fragment_feature_detection/decomposition.py`.

Numeric values are modelled over `ℚ` (idealized real arithmetic); a float
that may be non-finite (NaN/inf, e.g. the result of `np.nanmean` over an
empty selection) is modelled as `Option ℚ` with `none` standing for the
non-finite case.  External collaborators (the sklearn NMF solver, the
summary routine from `utils.py`, `np.log2`, and the numpy random bit
generator) are abstracted as function parameters gathered in `FitEnv`.
-/

namespace FragmentFeatureDetection

/-- A matrix of rationals, stored as a list of rows (numpy 2-D array). -/
abbrev QMat := List (List ℚ)

/-- A float value that may be non-finite: `none` models NaN/inf. -/
abbrev FQ := Option ℚ

/-- Row-major flattening of a matrix (numpy `.flatten()`). -/
def flattenM {α : Type} (m : List (List α)) : List α := m.flatten

/-- Model of `np.nanmean` on a list of finite values: NaN (`none`) on an
empty list, otherwise the arithmetic mean. -/
def nanmean (l : List ℚ) : FQ :=
  if l.isEmpty then none else some (l.sum / (l.length : ℚ))

/-- Model of `np.nanmean` over values that may be NaN: NaN entries are
ignored; the result is NaN iff no finite entry remains. -/
def nanmeanF (l : List FQ) : FQ := nanmean (l.filterMap id)

/-- Negation lifted to possibly-non-finite floats (`-1.0 * x`). -/
def fneg (x : FQ) : FQ := x.map (fun v => -v)

/-- Division lifted to possibly-non-finite floats: division by zero and
any non-finite operand produce a non-finite result. -/
def fdiv (a b : FQ) : FQ :=
  match a, b with
  | some x, some y => if y = 0 then none else some (x / y)
  | _, _ => none

/-- Dot product of two rows (truncating at the shorter one). -/
def dotQ (a b : List ℚ) : ℚ := ((a.zip b).map (fun p => p.1 * p.2)).sum

/-- Column `j` of a matrix. -/
def colM (b : QMat) (j : ℕ) : List ℚ := b.map (fun r => r.getD j 0)

/-- Matrix product `A @ B`. -/
def matMul (a b : QMat) : QMat :=
  a.map (fun row => (List.range (b.headD []).length).map (fun j => dotQ row (colM b j)))

/-- Sum of all entries of a matrix (numpy `.sum()`). -/
def matSum (m : QMat) : ℚ := (flattenM m).sum

/-- An all-zero `r × c` matrix (`np.zeros`). -/
def zerosM (r c : ℕ) : QMat := List.replicate r (List.replicate c 0)

/-! ## OptimizationParameters -/

/-- Embedding of the `OptimizationParameters` class: the four geometry
attributes, and the `_error` norm selector string. -/
structure OptimizationParameters where
  components_in_window : ℚ := 8
  components : ℚ := 20
  scan_width : ℚ := 150
  component_sigma : ℚ := 3
  error : String := "l1"

/-- Association-list lookup used to model membership in the Python
`_scores` dict (`param in self._scores.keys()` plus `self._scores[param]`). -/
def lookupQ (k : String) : List (String × ℚ) → Option ℚ
  | [] => none
  | (a, b) :: rest => if k = a then some b else lookupQ k rest

/-- The `_scores` target table built by `OptimizationParameters.set_params`. -/
def OptimizationParameters.scoresTable (op : OptimizationParameters) : List (String × ℚ) :=
  [("weight_orthogonality", 0),
   ("sample_orthogonality", 0),
   ("nonzero_component_fraction", op.components_in_window / op.components),
   ("mean_weight_sparsity", -1),
   ("mean_sample_sparsity", -1),
   ("fraction_window_component",
     op.components_in_window * 4 * op.component_sigma / op.scan_width)]

/-- Embedding of `OptimizationParameters.score`: for a known metric it
returns `-1.0 * |value + target|` under "l1" and `-1.0 * (value + target)^2`
under "l2" (note the `+`, exactly as in the source); any other metric, or
an unrecognized error norm, passes the value through unchanged. -/
def OptimizationParameters.score (op : OptimizationParameters) (param : String) (value : ℚ) : ℚ :=
  match lookupQ param op.scoresTable with
  | some t =>
    if op.error = "l1" then -(|value + t|)
    else if op.error = "l2" then -((value + t) ^ 2)
    else value
  | none => value

/-! ## Claim C1 -/

/-- C1 counterexample: the claim says `score(metric, value) = -|value - target|`
under L1.  For the default parameters the target of
`"nonzero_component_fraction"` is `8/20 = 2/5`, and the claim therefore
demands `score("nonzero_component_fraction", 2/5) = -|2/5 - 2/5| = 0`;
the code computes `-|2/5 + 2/5| = -4/5` instead. -/
theorem optimization_score_claim_false :
    lookupQ "nonzero_component_fraction" ({} : OptimizationParameters).scoresTable
      = some (2/5)
    ∧ ({} : OptimizationParameters).score "nonzero_component_fraction" (2/5) = -(4/5)
    ∧ ({} : OptimizationParameters).score "nonzero_component_fraction" (2/5)
        ≠ -(|(2/5 : ℚ) - 2/5|) := by
  have hl : lookupQ "nonzero_component_fraction"
      ({} : OptimizationParameters).scoresTable = some (2/5) := by
    simp [lookupQ, OptimizationParameters.scoresTable]
    norm_num
  have hs : ({} : OptimizationParameters).score "nonzero_component_fraction" (2/5)
      = -(4/5) := by
    simp only [OptimizationParameters.score, hl]
    norm_num [abs_of_nonneg]
  refine ⟨hl, hs, ?_⟩
  rw [hs]
  norm_num

/-- C1 amended: for every metric name `p` present in the target table
(with target `t`) the score is `-|value + t|` under the L1 norm and
`-(value + t)^2` under the L2 norm, so it is maximized (equal to 0)
exactly when `value = -t` and decreases monotonically as `|value + t|`
grows; metric names not in the table pass through unchanged. -/
theorem optimization_score_amended (op : OptimizationParameters) (p q : String)
    (t v v₁ v₂ w : ℚ)
    (hp : lookupQ p op.scoresTable = some t)
    (hq : lookupQ q op.scoresTable = none)
    (hmono : |v₁ + t| ≤ |v₂ + t|) :
    (op.error = "l1" →
      op.score p v = -(|v + t|)
      ∧ (op.score p v = 0 ↔ v = -t)
      ∧ op.score p v₂ ≤ op.score p v₁)
    ∧ (op.error = "l2" →
      op.score p v = -((v + t) ^ 2)
      ∧ (op.score p v = 0 ↔ v = -t)
      ∧ op.score p v₂ ≤ op.score p v₁)
    ∧ op.score q w = w := by
  refine ⟨fun h1 => ?_, fun h2 => ?_, ?_⟩
  · have hs : ∀ u : ℚ, op.score p u = -(|u + t|) := by
      intro u
      simp [OptimizationParameters.score, hp, h1]
    refine ⟨hs v, ?_, ?_⟩
    · rw [hs v]
      rw [neg_eq_zero, abs_eq_zero]
      constructor
      · intro h; linarith
      · intro h; rw [h]; ring
    · rw [hs v₁, hs v₂]
      exact neg_le_neg hmono
  · have hs : ∀ u : ℚ, op.score p u = -((u + t) ^ 2) := by
      intro u
      by_cases hl1 : op.error = "l1"
      · rw [hl1] at h2; exact absurd h2 (by decide)
      · simp [OptimizationParameters.score, hp, hl1, h2]
    refine ⟨hs v, ?_, ?_⟩
    · rw [hs v]
      rw [neg_eq_zero, pow_eq_zero_iff (two_ne_zero)]
      constructor
      · intro h; linarith
      · intro h; rw [h]; ring
    · rw [hs v₁, hs v₂]
      have h2le : (v₁ + t) ^ 2 ≤ (v₂ + t) ^ 2 := by
        rw [← sq_abs (v₁ + t), ← sq_abs (v₂ + t)]
        exact pow_le_pow_left₀ (abs_nonneg _) hmono 2
      exact neg_le_neg h2le
  · simp [OptimizationParameters.score, hq]

/-- C1 witness: the amended theorem instantiated at the default
parameters, metric `"weight_orthogonality"` (target 0), value 2,
monotonicity pair (1, 3), and unknown metric `"undefined_metric"`. -/
theorem optimization_score_amended_witness :
    ((({} : OptimizationParameters).error = "l1" →
      ({} : OptimizationParameters).score "weight_orthogonality" 2 = -(|(2 : ℚ) + 0|)
      ∧ (({} : OptimizationParameters).score "weight_orthogonality" 2 = 0 ↔ (2 : ℚ) = -0)
      ∧ ({} : OptimizationParameters).score "weight_orthogonality" 3
          ≤ ({} : OptimizationParameters).score "weight_orthogonality" 1)
    ∧ (({} : OptimizationParameters).error = "l2" →
      ({} : OptimizationParameters).score "weight_orthogonality" 2 = -(((2 : ℚ) + 0) ^ 2)
      ∧ (({} : OptimizationParameters).score "weight_orthogonality" 2 = 0 ↔ (2 : ℚ) = -0)
      ∧ ({} : OptimizationParameters).score "weight_orthogonality" 3
          ≤ ({} : OptimizationParameters).score "weight_orthogonality" 1)
    ∧ ({} : OptimizationParameters).score "undefined_metric" 5 = 5) :=
  optimization_score_amended {} "weight_orthogonality" "undefined_metric" 0 2 1 3 5
    (by simp [lookupQ, OptimizationParameters.scoresTable])
    (by simp [lookupQ, OptimizationParameters.scoresTable])
    (by norm_num)

/-! ## Splitters

The numpy random generator is abstracted as a function
`gen : ℕ → ℕ → ℚ` mapping a seed and a draw index to a value in the
unit interval; `np.random.default_rng(seed)` corresponds to fixing the
seed argument and starting the draw counter at 0, and each scalar drawn
by `rng.random(...)` consumes one counter position.  Every `split` call
re-creates the generator from the stored seed, which is exactly how the
source reseeds on each invocation. -/

/-- A 2-D boolean mask (bin-masking splitter). -/
abbrev Mask2 := List (List Bool)

/-- Threads a draw counter through a list, mirroring consecutive
`rng.random` calls inside a Python `for` loop. -/
def mapCounter {α β : Type} (f : ℕ → α → β × ℕ) : ℕ → List α → List β × ℕ
  | c, [] => ([], c)
  | c, a :: as =>
    let r := f c a
    let rest := mapCounter f r.2 as
    (r.1 :: rest.1, rest.2)

/-- Runs a per-split body `n` times, threading the draw counter,
mirroring `for _ in range(self._n_splits)` around `rng.random` calls. -/
def splitIter {σ : Type} (f : ℕ → σ × ℕ) : ℕ → ℕ → List σ
  | 0, _ => []
  | k + 1, c =>
    let r := f c
    r.1 :: splitIter f k r.2

/-- Restores a flat boolean mask to the row structure of `m`
(numpy `flat_mask.reshape(m.shape)`). -/
def reshapeLike : QMat → List Bool → Mask2
  | [], _ => []
  | r :: rs, flat => flat.take r.length :: reshapeLike rs (flat.drop r.length)

/-- Embedding of the `MzBinMaskingSplitter` constructor attributes. -/
structure MzBinMaskingSplitter where
  n_splits : ℕ := 5
  mask_fraction : ℚ := 1/5
  random_state : ℕ := 42
  mask_signal : Bool := false
  balance_mask_signal : Bool := true

/-- One `sub_mask` computation of `MzBinMaskingSplitter.split` for a
single matrix `m`, starting at draw counter `c`: either a Bernoulli mask
over every entry, or (signal-aware mode) a mask drawn over the nonzero
entries, optionally balanced by drawing zero entries at the realized
masked fraction.  Returns the mask and the advanced counter. -/
def maskingSubMask (gen : ℕ → ℚ) (fraction : ℚ) (mask_signal balance : Bool)
    (c : ℕ) (m : QMat) : Mask2 × ℕ :=
  let flat := flattenM m
  if mask_signal = false then
    (reshapeLike m ((List.range flat.length).map (fun i => decide (gen (c + i) < fraction))),
     c + flat.length)
  else
    let nz := (List.range flat.length).filter (fun i => decide (0 < flat.getD i 0))
    let sel1 := (nz.enum.filter (fun p => decide (gen (c + p.1) < fraction))).map Prod.snd
    let mask1 := (List.range flat.length).map (fun i => decide (i ∈ sel1))
    let c1 := c + nz.length
    if balance then
      let z := (List.range flat.length).filter (fun i => decide (flat.getD i 0 = 0))
      let thresh : ℚ := ((mask1.count true : ℕ) : ℚ) / ((mask1.length : ℕ) : ℚ)
      let sel2 := (z.enum.filter (fun p => decide (gen (c1 + p.1) < thresh))).map Prod.snd
      (reshapeLike m ((List.range flat.length).map (fun i => decide (i ∈ sel1 ∨ i ∈ sel2))),
       c1 + z.length)
    else
      (reshapeLike m mask1, c1)

/-- One `yield` of `MzBinMaskingSplitter.split`: per matrix a
`sub_mask`, accumulated as `(unmasked, masked)` where
`unmasked = ~sub_mask`. -/
def maskingSplitOne (gen : ℕ → ℚ) (fraction : ℚ) (mask_signal balance : Bool)
    (c : ℕ) (X : List QMat) : (List Mask2 × List Mask2) × ℕ :=
  let r := mapCounter (maskingSubMask gen fraction mask_signal balance) c X
  ((r.1.map (fun mk => mk.map (fun row => row.map not)), r.1), r.2)

/-- Embedding of `MzBinMaskingSplitter.split`: re-creates the generator
from `random_state` (counter 0) and yields `n_splits`
`(unmasked, masked)` pairs. -/
def MzBinMaskingSplitter.split (s : MzBinMaskingSplitter) (gen : ℕ → ℕ → ℚ)
    (X : List QMat) : List (List Mask2 × List Mask2) :=
  splitIter
    (fun c => maskingSplitOne (gen s.random_state) s.mask_fraction
      s.mask_signal s.balance_mask_signal c X)
    s.n_splits 0

/-- Embedding of `MzBinMaskingSplitter.mask_train_matrix`: zeroes the
masked entries (`m[mask] = 0.0`). -/
def MzBinMaskingSplitter.mask_train_matrix (m : QMat) (mask : Mask2) : QMat :=
  List.zipWith (fun row mrow => List.zipWith (fun x b => if b then 0 else x) row mrow) m mask

/-- Entries of `m` selected by the boolean mask (`m[mask]` on a 2-D
array and mask of the same shape). -/
def maskSelect (m : QMat) (mask : Mask2) : List ℚ :=
  ((flattenM m).zip (flattenM mask)).filterMap (fun p => if p.2 then some p.1 else none)

/-- Embedding of `MzBinMaskingSplitter.reconstruction_error`:
`np.nanmean((m[mask] - m_reconstructed[mask]) ** 2)`; the mean over an
empty selection is NaN (`none`). -/
def MzBinMaskingSplitter.reconstruction_error (m m_reconstructed : QMat)
    (mask : Mask2) : FQ :=
  nanmean (List.zipWith (fun a b => (a - b) ^ 2) (maskSelect m mask)
    (maskSelect m_reconstructed mask))

/-- Embedding of the `MzBinSampleSplitter` constructor attributes. -/
structure MzBinSampleSplitter where
  n_splits : ℕ := 5
  mask_fraction : ℚ := 1/5
  random_state : ℕ := 42

/-- One per-matrix `sub_mask` of `MzBinSampleSplitter.split`: a
Bernoulli mask over the rows (`rng.random(m.shape[0]) < fraction`). -/
def sampleSubMask (gen : ℕ → ℚ) (fraction : ℚ) (c : ℕ) (m : QMat) : List Bool × ℕ :=
  ((List.range m.length).map (fun i => decide (gen (c + i) < fraction)), c + m.length)

/-- Embedding of `MzBinSampleSplitter.split`: re-creates the generator
from `random_state` and yields `n_splits` `(unmasked, masked)` pairs of
row masks. -/
def MzBinSampleSplitter.split (s : MzBinSampleSplitter) (gen : ℕ → ℕ → ℚ)
    (X : List QMat) : List (List (List Bool) × List (List Bool)) :=
  splitIter
    (fun c =>
      let r := mapCounter (sampleSubMask (gen s.random_state) s.mask_fraction) c X
      ((r.1.map (fun mk => mk.map not), r.1), r.2))
    s.n_splits 0

/-- Rows of `m` selected by a row mask (`m[mask]` with a 1-D boolean
mask over axis 0). -/
def rowSelect (m : QMat) (mask : List Bool) : QMat :=
  ((m.zip mask).filter (fun p => p.2)).map Prod.fst

/-- Embedding of `MzBinSampleSplitter.mask_train_matrix`: keeps the
unmasked rows (`m[~mask]`). -/
def MzBinSampleSplitter.mask_train_matrix (m : QMat) (mask : List Bool) : QMat :=
  rowSelect m (mask.map not)

/-- Abstraction of a fitted sklearn `NMF` model object: its
`components_` matrix and its `transform` method (the latter is an
external iterative solver, modelled as an opaque function). -/
structure NMFModel where
  components : QMat
  transformMat : QMat → QMat

/-- Embedding of `MzBinSampleSplitter.reconstruction_error`: when the
fitted basis or the held-out rows are all zero, MSE of the held-out rows
against an all-zero reconstruction; otherwise the held-out rows are
re-transformed through the model and reconstructed.  The supplied
`m_reconstructed` argument is unused, exactly as in the source. -/
def MzBinSampleSplitter.reconstruction_error (m _m_reconstructed : QMat)
    (mask : List Bool) (model : NMFModel) : FQ :=
  let sel := rowSelect m mask
  if matSum model.components = 0 ∨ matSum sel = 0 then
    nanmean ((flattenM sel).map (fun x => (x - 0) ^ 2))
  else
    let mt := model.transformMat sel
    let mrec := matMul mt model.components
    nanmean (List.zipWith (fun a b => (a - b) ^ 2) (flattenM sel) (flattenM mrec))

/-! ## Claim C5 -/

/-- C5: both splitters are deterministic — `split` re-creates the random
generator from the stored seed on every invocation, so two calls on the
same instance, or on any two instances constructed with the same
`n_splits`, `mask_fraction` and seed (and masking flags), produce
element-wise identical sequences of (train-mask, test-mask) pairs; the
second call replays the same masks instead of continuing the random
stream. -/
theorem splitter_split_deterministic (gen : ℕ → ℕ → ℚ) (X : List QMat)
    (n : ℕ) (f : ℚ) (seed : ℕ) (ms b : Bool)
    (s₁ s₂ : MzBinMaskingSplitter) (t₁ t₂ : MzBinSampleSplitter)
    (hs₁ : s₁ = ⟨n, f, seed, ms, b⟩) (hs₂ : s₂ = ⟨n, f, seed, ms, b⟩)
    (ht₁ : t₁ = ⟨n, f, seed⟩) (ht₂ : t₂ = ⟨n, f, seed⟩) :
    s₁.split gen X = s₂.split gen X ∧ t₁.split gen X = t₂.split gen X := by
  subst hs₁ hs₂ ht₁ ht₂
  exact ⟨rfl, rfl⟩

/-- C5 witness: determinism instantiated at a concrete generator, seed,
split count, fraction and one concrete 2×2 matrix. -/
theorem splitter_split_deterministic_witness :
    MzBinMaskingSplitter.split ⟨3, 1/5, 7, true, true⟩ (fun s i => 1 / (s + i + 1)) [[[1, 0], [0, 2]]]
      = MzBinMaskingSplitter.split ⟨3, 1/5, 7, true, true⟩ (fun s i => 1 / (s + i + 1)) [[[1, 0], [0, 2]]]
    ∧ MzBinSampleSplitter.split ⟨3, 1/5, 7⟩ (fun s i => 1 / (s + i + 1)) [[[1, 0], [0, 2]]]
      = MzBinSampleSplitter.split ⟨3, 1/5, 7⟩ (fun s i => 1 / (s + i + 1)) [[[1, 0], [0, 2]]] :=
  splitter_split_deterministic (fun s i => 1 / (s + i + 1)) [[[1, 0], [0, 2]]]
    3 (1/5) 7 true true _ _ _ _ rfl rfl rfl rfl

/-! ## NMFMaskWrapper -/

/-- Result record of `calculate_nmf_summary`. -/
structure NMFSummary where
  nonzero_component_fraction : ℚ
  weight_sparsity : ℚ
  sample_sparsity : ℚ
  weight_deviation_identity : ℚ
  sample_deviation_identity : ℚ
  fraction_window_component : ℚ

/-- Abstracted external collaborators of the fit loop.

Modelled from the spec: the sklearn NMF solver (out of scope, an
iterative floating-point routine) is `nmfSolver`, returning `none` when
the underlying fit raises (non-finite inputs); `fallbackTransform` is
the `transform` method of a model object whose components were
overwritten by the zero fallback; `summary` is `calculate_nmf_summary`
from `utils.py`, which is not part of the sources and per the spec maps
`(weights, components)` to the six structural summary scalars; `log2q`
is `np.log2` (`none` models a non-finite result); `gen` is the numpy
random generator keyed by seed and draw index. -/
structure FitEnv where
  gen : ℕ → ℕ → ℚ
  nmfSolver : ℕ → QMat → Option (QMat × NMFModel)
  fallbackTransform : QMat → QMat
  summary : QMat → QMat → NMFSummary
  log2q : ℚ → FQ

/-- Embedding of `fit_nmf_matrix_custom_init` (restricted to the
arguments the wrapper passes): clamps `n_components` to
`min(n_components, max(min(m.shape), 1))`, delegates to the external
solver, and on a zero-dimension matrix or a solver exception falls back
to an all-zero basis and all-zero components. -/
def fit_nmf_matrix_custom_init (env : FitEnv) (n_components : ℕ) (m : QMat) :
    QMat × QMat × NMFModel :=
  let s0 := m.length
  let s1 := (m.headD []).length
  let nc := min n_components (max (min s0 s1) 1)
  if min s0 s1 = 0 then
    (zerosM s0 nc, zerosM nc s1, ⟨zerosM nc s1, env.fallbackTransform⟩)
  else
    match env.nmfSolver nc m with
    | some (w, model) => (w, model.components, model)
    | none => (zerosM s0 nc, zerosM nc s1, ⟨zerosM nc s1, env.fallbackTransform⟩)

/-- Embedding of the `NMFMaskWrapper` constructor attributes
(`random_state` and `n_components` stand for the corresponding entries
of `**nmf_kwargs`, with the defaults used by
`self._nmf_kwargs.get("random_state", 42)` and
`fit_nmf_matrix_custom_init`). -/
structure NMFMaskWrapper where
  splitter_type : String := "Masking"
  n_splits : ℕ := 5
  mask_fraction : ℚ := 1/5
  mask_signal : Bool := true
  balance_mask_signal : Bool := true
  random_state : ℕ := 42
  n_components : ℕ := 20

/-- A train/test mask as handled generically inside `fit`: a 2-D bin
mask (from `MzBinMaskingSplitter`) or a 1-D row mask
(from `MzBinSampleSplitter`). -/
inductive MaskT : Type
  | bins : Mask2 → MaskT
  | rows : List Bool → MaskT

/-- Dispatch of `splitter.mask_train_matrix(m_train, test_mask)`. -/
def maskTrainT (m : QMat) : MaskT → QMat
  | .bins mask => MzBinMaskingSplitter.mask_train_matrix m mask
  | .rows mask => MzBinSampleSplitter.mask_train_matrix m mask

/-- Dispatch of `splitter.reconstruction_error(m, m_reconstructed, mask, model)`. -/
def reconErrT (m m_reconstructed : QMat) (model : NMFModel) : MaskT → FQ
  | .bins mask => MzBinMaskingSplitter.reconstruction_error m m_reconstructed mask
  | .rows mask => MzBinSampleSplitter.reconstruction_error m m_reconstructed mask model

/-- The `mask.sum()` of a boolean mask: its number of `True` entries. -/
def maskSumT : MaskT → ℕ
  | .bins mask => (flattenM mask).count true
  | .rows mask => mask.count true

/-- The mutable per-fit state of `NMFMaskWrapper`: the thirteen metric
lists that `fit` initializes to `[]`. -/
structure NMFState where
  models : List NMFModel := []
  reconstruction_errors : List FQ := []
  test_reconstruction_errors : List FQ := []
  train_reconstruction_errors : List FQ := []
  neglog_ratio_train_test_reconstruction_error : List FQ := []
  nonzero_component_fraction : List ℚ := []
  fraction_window_component : List ℚ := []
  weight_orthogonality : List ℚ := []
  sample_orthogonality : List ℚ := []
  test_samples : List ℕ := []
  train_samples : List ℕ := []
  mean_weight_sparsity : List ℚ := []
  mean_sample_sparsity : List ℚ := []

/-- The freshly reset state produced at the top of `fit`. -/
def emptyNMFState : NMFState := {}

/-- The body of the inner loop of `NMFMaskWrapper.fit` for one
`(matrix, train_mask, test_mask)` triple: masks out the test portion,
fits the model, computes the summary and both reconstruction errors, and
appends one entry to each tracked metric list. -/
def fitStep (env : FitEnv) (w : NMFMaskWrapper) (s : NMFState)
    (x : QMat × MaskT × MaskT) : NMFState :=
  let m := x.1
  let train_mask := x.2.1
  let test_mask := x.2.2
  let m_train := maskTrainT m test_mask
  let whm := fit_nmf_matrix_custom_init env w.n_components m_train
  let wMat := whm.1
  let hMat := whm.2.1
  let model := whm.2.2
  let sr := env.summary wMat hMat
  let m_reconstructed := matMul wMat hMat
  let mse := reconErrT m m_reconstructed model test_mask
  let mse_train := reconErrT m m_reconstructed model train_mask
  { s with
    models := s.models ++ [model]
    nonzero_component_fraction := s.nonzero_component_fraction ++ [sr.nonzero_component_fraction]
    mean_weight_sparsity := s.mean_weight_sparsity ++ [sr.weight_sparsity]
    mean_sample_sparsity := s.mean_sample_sparsity ++ [sr.sample_sparsity]
    weight_orthogonality := s.weight_orthogonality ++ [sr.weight_deviation_identity]
    sample_orthogonality := s.sample_orthogonality ++ [sr.sample_deviation_identity]
    neglog_ratio_train_test_reconstruction_error :=
      s.neglog_ratio_train_test_reconstruction_error
        ++ [fneg ((fdiv mse_train mse).bind env.log2q)]
    test_reconstruction_errors := s.test_reconstruction_errors ++ [mse]
    train_reconstruction_errors := s.train_reconstruction_errors ++ [mse_train]
    test_samples := s.test_samples ++ [maskSumT test_mask]
    train_samples := s.train_samples ++ [maskSumT train_mask]
    fraction_window_component := s.fraction_window_component ++ [sr.fraction_window_component] }

/-- Truncating three-way zip, modelling `zip(X, train_idxes, test_idxes)`. -/
def zip3 {α β γ : Type} : List α → List β → List γ → List (α × β × γ)
  | a :: as, b :: bs, c :: cs => (a, b, c) :: zip3 as bs cs
  | _, _, _ => []

/-- The message of the `ValueError` raised for an unsupported
`splitter_type`. -/
def invalidSplitterMessage : String :=
  "Invalid splitter type: must be either Masking or Sample."

/-- Embedding of `NMFMaskWrapper.fit`.  The previous wrapper state
`_prev` is overwritten: `fit` first resets all thirteen metric lists to
`[]`, then dispatches on `splitter_type` — accepting only `"Mask"` and
`"Sample"` — and only then loops over the splits.  The result is the
final state together with `some message` when the `ValueError` for an
invalid splitter type is raised (`none` on success). -/
def fitLoop (env : FitEnv) (w : NMFMaskWrapper) (X : List QMat)
    (splits : List (List MaskT × List MaskT)) : NMFState :=
  splits.foldl (fun s p => (zip3 X p.1 p.2).foldl (fitStep env w) s) emptyNMFState

/-- The `(train, test)` mask pairs produced by the `"Mask"` branch of
`fit`, tagged as generic masks. -/
def maskingSplitsT (env : FitEnv) (w : NMFMaskWrapper) (X : List QMat) :
    List (List MaskT × List MaskT) :=
  ((⟨w.n_splits, w.mask_fraction, w.random_state, w.mask_signal, w.balance_mask_signal⟩
      : MzBinMaskingSplitter).split env.gen X).map
    (fun p => (p.1.map MaskT.bins, p.2.map MaskT.bins))

/-- The `(train, test)` mask pairs produced by the `"Sample"` branch of
`fit`, tagged as generic masks. -/
def sampleSplitsT (env : FitEnv) (w : NMFMaskWrapper) (X : List QMat) :
    List (List MaskT × List MaskT) :=
  ((⟨w.n_splits, w.mask_fraction, w.random_state⟩ : MzBinSampleSplitter).split env.gen X).map
    (fun p => (p.1.map MaskT.rows, p.2.map MaskT.rows))

def NMFMaskWrapper.fitRun (env : FitEnv) (w : NMFMaskWrapper) (_prev : NMFState)
    (X : List QMat) : NMFState × Option String :=
  if w.splitter_type = "Mask" then
    (fitLoop env w X (maskingSplitsT env w X), none)
  else if w.splitter_type = "Sample" then
    (fitLoop env w X (sampleSplitsT env w X), none)
  else
    (emptyNMFState, some invalidSplitterMessage)

/-- Embedding of `NMFMaskWrapper.score`:
`-1 * np.nanmean(self._reconstruction_errors)`. -/
def NMFMaskWrapper.scoreState (s : NMFState) : FQ :=
  fneg (nanmeanF s.reconstruction_errors)

/-! ## Claim C2: list-length alignment of the tracked metrics -/

/-- All twelve metric lists appended to by the fit loop (everything
tracked except the never-touched `reconstruction_errors`) have length
`n`. -/
def lensEq (s : NMFState) (n : ℕ) : Prop :=
  s.models.length = n
  ∧ s.test_reconstruction_errors.length = n
  ∧ s.train_reconstruction_errors.length = n
  ∧ s.neglog_ratio_train_test_reconstruction_error.length = n
  ∧ s.nonzero_component_fraction.length = n
  ∧ s.fraction_window_component.length = n
  ∧ s.weight_orthogonality.length = n
  ∧ s.sample_orthogonality.length = n
  ∧ s.test_samples.length = n
  ∧ s.train_samples.length = n
  ∧ s.mean_weight_sparsity.length = n
  ∧ s.mean_sample_sparsity.length = n

theorem fitStep_lensEq (env : FitEnv) (w : NMFMaskWrapper) (s : NMFState)
    (x : QMat × MaskT × MaskT) (n : ℕ) (h : lensEq s n) :
    lensEq (fitStep env w s x) (n + 1) := by
  unfold lensEq at h ⊢
  simp only [fitStep, List.length_append, List.length_cons, List.length_nil]
  omega

theorem foldl_fitStep_lensEq (env : FitEnv) (w : NMFMaskWrapper) :
    ∀ (l : List (QMat × MaskT × MaskT)) (s : NMFState) (n : ℕ), lensEq s n →
      lensEq (l.foldl (fitStep env w) s) (n + l.length)
  | [], s, n, h => by simpa using h
  | x :: xs, s, n, h => by
    rw [List.foldl_cons, List.length_cons,
      show n + (xs.length + 1) = (n + 1) + xs.length from by omega]
    exact foldl_fitStep_lensEq env w xs _ _ (fitStep_lensEq env w s x n h)

theorem fitStep_reconstruction_errors (env : FitEnv) (w : NMFMaskWrapper)
    (s : NMFState) (x : QMat × MaskT × MaskT) :
    (fitStep env w s x).reconstruction_errors = s.reconstruction_errors := rfl

theorem foldl_fitStep_reconstruction_errors (env : FitEnv) (w : NMFMaskWrapper) :
    ∀ (l : List (QMat × MaskT × MaskT)) (s : NMFState),
      (l.foldl (fitStep env w) s).reconstruction_errors = s.reconstruction_errors
  | [], _ => rfl
  | x :: xs, s => by
    rw [List.foldl_cons, foldl_fitStep_reconstruction_errors env w xs]
    exact fitStep_reconstruction_errors env w s x

theorem splitIter_length {σ : Type} (f : ℕ → σ × ℕ) :
    ∀ (k c : ℕ), (splitIter f k c).length = k
  | 0, _ => rfl
  | k + 1, c => by simp [splitIter, splitIter_length f k]

theorem splitIter_mem {σ : Type} (f : ℕ → σ × ℕ) (P : σ → Prop)
    (hf : ∀ c, P (f c).1) : ∀ (k c : ℕ), ∀ p ∈ splitIter f k c, P p
  | 0, _ => by simp [splitIter]
  | k + 1, c => by
    intro p hp
    simp only [splitIter, List.mem_cons] at hp
    rcases hp with h | h
    · rw [h]; exact hf c
    · exact splitIter_mem f P hf k _ p h

theorem mapCounter_fst_length {α β : Type} (f : ℕ → α → β × ℕ) :
    ∀ (c : ℕ) (l : List α), (mapCounter f c l).1.length = l.length
  | _, [] => rfl
  | c, a :: as => by simp [mapCounter, mapCounter_fst_length f _ as]

theorem zip3_length {α β γ : Type} :
    ∀ (xs : List α) (bs : List β) (cs : List γ),
      bs.length = xs.length → cs.length = xs.length →
      (zip3 xs bs cs).length = xs.length
  | [], _, _, _, _ => by
    simp only [List.length_nil]
    rfl
  | _ :: xs, b :: bs, c :: cs, hb, hc => by
    simp only [zip3, List.length_cons] at hb hc ⊢
    exact congrArg (· + 1) (zip3_length xs bs cs (by omega) (by omega))
  | _ :: _, [], _, hb, _ => by simp at hb
  | _ :: _, _ :: _, [], _, hc => by simp at hc

theorem fitLoop_lensEq (env : FitEnv) (w : NMFMaskWrapper) (X : List QMat) :
    ∀ (splits : List (List MaskT × List MaskT)) (s : NMFState) (n : ℕ),
      (∀ p ∈ splits, p.1.length = X.length ∧ p.2.length = X.length) →
      lensEq s n →
      lensEq (splits.foldl (fun s p => (zip3 X p.1 p.2).foldl (fitStep env w) s) s)
        (n + splits.length * X.length)
  | [], s, n, _, h => by simpa using h
  | p :: ps, s, n, hp, h => by
    have hph := hp p (List.mem_cons_self p ps)
    have hz : (zip3 X p.1 p.2).length = X.length := zip3_length X p.1 p.2 hph.1 hph.2
    have h1 : lensEq ((zip3 X p.1 p.2).foldl (fitStep env w) s) (n + X.length) := by
      have := foldl_fitStep_lensEq env w (zip3 X p.1 p.2) s n h
      rwa [hz] at this
    rw [List.foldl_cons, List.length_cons,
      show n + (ps.length + 1) * X.length = (n + X.length) + ps.length * X.length from by ring]
    exact fitLoop_lensEq env w X ps _ _ (fun q hq => hp q (List.mem_cons_of_mem p hq)) h1

theorem maskingSplitsT_shapes (env : FitEnv) (w : NMFMaskWrapper) (X : List QMat) :
    ∀ p ∈ maskingSplitsT env w X, p.1.length = X.length ∧ p.2.length = X.length := by
  intro p hp
  simp only [maskingSplitsT, List.mem_map] at hp
  obtain ⟨q, hq, rfl⟩ := hp
  have hmem := splitIter_mem _
    (fun q : List Mask2 × List Mask2 => q.1.length = X.length ∧ q.2.length = X.length)
    (fun c => by simp [maskingSplitOne, mapCounter_fst_length]) _ _ q hq
  simpa using hmem

theorem sampleSplitsT_shapes (env : FitEnv) (w : NMFMaskWrapper) (X : List QMat) :
    ∀ p ∈ sampleSplitsT env w X, p.1.length = X.length ∧ p.2.length = X.length := by
  intro p hp
  simp only [sampleSplitsT, List.mem_map] at hp
  obtain ⟨q, hq, rfl⟩ := hp
  have hmem := splitIter_mem _
    (fun q : List (List Bool) × List (List Bool) =>
      q.1.length = X.length ∧ q.2.length = X.length)
    (fun c => by simp [mapCounter_fst_length]) _ _ q hq
  simpa using hmem

theorem maskingSplitsT_length (env : FitEnv) (w : NMFMaskWrapper) (X : List QMat) :
    (maskingSplitsT env w X).length = w.n_splits := by
  simp [maskingSplitsT, MzBinMaskingSplitter.split, splitIter_length]

theorem sampleSplitsT_length (env : FitEnv) (w : NMFMaskWrapper) (X : List QMat) :
    (sampleSplitsT env w X).length = w.n_splits := by
  simp [sampleSplitsT, MzBinSampleSplitter.split, splitIter_length]

/-- C2: for every accepted splitter type (`"Mask"` or `"Sample"`) and
every input matrix list, `NMFMaskWrapper.fit` completes without the
splitter-validation error and leaves every tracked per-iteration metric
list (models, test/train reconstruction errors, neglog ratio,
nonzero-component fraction, fraction-window-component, weight/sample
orthogonality, test/train sample counts, mean weight/sample sparsity)
with length exactly `n_splits * X.length`: every branch of the fit loop
appends to every list exactly once per (split, matrix) iteration,
including degenerate fallback fits (the statement quantifies over every
possible solver outcome through `env`). -/
theorem nmfmask_fit_metric_lengths (env : FitEnv) (w : NMFMaskWrapper)
    (prev : NMFState) (X : List QMat)
    (h : w.splitter_type = "Mask" ∨ w.splitter_type = "Sample") :
    (w.fitRun env prev X).2 = none
    ∧ lensEq (w.fitRun env prev X).1 (w.n_splits * X.length) := by
  have hempty : lensEq emptyNMFState 0 := by
    simp [lensEq, emptyNMFState]
  rcases h with hM | hS
  · have hfit : w.fitRun env prev X = (fitLoop env w X (maskingSplitsT env w X), none) := by
      simp [NMFMaskWrapper.fitRun, hM]
    rw [hfit]
    refine ⟨rfl, ?_⟩
    have := fitLoop_lensEq env w X (maskingSplitsT env w X) emptyNMFState 0
      (maskingSplitsT_shapes env w X) hempty
    rw [maskingSplitsT_length env w X] at this
    simpa [fitLoop] using this
  · have hfit : w.fitRun env prev X = (fitLoop env w X (sampleSplitsT env w X), none) := by
      by_cases hM : w.splitter_type = "Mask"
      · rw [hM] at hS; exact absurd hS (by decide)
      · simp [NMFMaskWrapper.fitRun, hM, hS]
    rw [hfit]
    refine ⟨rfl, ?_⟩
    have := fitLoop_lensEq env w X (sampleSplitsT env w X) emptyNMFState 0
      (sampleSplitsT_shapes env w X) hempty
    rw [sampleSplitsT_length env w X] at this
    simpa [fitLoop] using this

/-- A concrete environment used by the witnesses: a constant generator,
a solver that always fails (every fit degrades to the zero-matrix
fallback), a trivial summary and a non-finite log. -/
def envC : FitEnv where
  gen := fun _ _ => 0
  nmfSolver := fun _ _ => none
  fallbackTransform := fun m => m
  summary := fun _ _ => ⟨0, 0, 0, 0, 0, 0⟩
  log2q := fun _ => none

/-- C2 witness: a `"Mask"`-splitter wrapper with 2 splits on a single
1×1 matrix; every tracked list ends with length 2 × 1 = 2. -/
theorem nmfmask_fit_metric_lengths_witness :
    (NMFMaskWrapper.fitRun envC
        { splitter_type := "Mask", n_splits := 2 } emptyNMFState [[[1]]]).2 = none
    ∧ lensEq (NMFMaskWrapper.fitRun envC
        { splitter_type := "Mask", n_splits := 2 } emptyNMFState [[[1]]]).1 (2 * 1) :=
  nmfmask_fit_metric_lengths envC { splitter_type := "Mask", n_splits := 2 }
    emptyNMFState [[[1]]] (Or.inl rfl)

/-! ## Claims C3 and C9: the invalid-splitter error path -/

/-- A wrapper state left over from an earlier successful fit: one fitted
model is recorded. -/
def prevC : NMFState := { models := [⟨[[1]], fun m => m⟩] }

/-- C3 counterexample: with the unsupported splitter type `"Masking"`,
`fit` does raise the validation error, but the wrapper's state is NOT
left unchanged — the thirteen metric lists are reset to `[]` before the
dispatch, so a pre-fit state holding one fitted model differs from the
post-error state. -/
theorem nmfmask_fit_invalid_splitter_mutates :
    (NMFMaskWrapper.fitRun envC { splitter_type := "Masking" } prevC [[[1]]]).2
      = some invalidSplitterMessage
    ∧ (NMFMaskWrapper.fitRun envC { splitter_type := "Masking" } prevC [[[1]]]).1 ≠ prevC := by
  refine ⟨rfl, ?_⟩
  intro h
  have h2 := congrArg (fun s => s.models.length) h
  simp [NMFMaskWrapper.fitRun, emptyNMFState, prevC] at h2

/-- C3 amended: for every wrapper whose `splitter_type` is neither
`"Mask"` nor `"Sample"`, `fit` raises the validation error immediately
(before any model is fitted), but only after resetting all metric lists:
the final state is the freshly-initialized empty state, not the prior
state. -/
theorem nmfmask_fit_invalid_splitter_amended (env : FitEnv) (w : NMFMaskWrapper)
    (prev : NMFState) (X : List QMat)
    (h1 : w.splitter_type ≠ "Mask") (h2 : w.splitter_type ≠ "Sample") :
    w.fitRun env prev X = (emptyNMFState, some invalidSplitterMessage) := by
  simp [NMFMaskWrapper.fitRun, h1, h2]

/-- C3 witness: the amended theorem at the concrete splitter type
`"Masking"`. -/
theorem nmfmask_fit_invalid_splitter_amended_witness :
    NMFMaskWrapper.fitRun envC { splitter_type := "Masking" } prevC []
      = (emptyNMFState, some invalidSplitterMessage) :=
  nmfmask_fit_invalid_splitter_amended envC { splitter_type := "Masking" } prevC []
    (by decide) (by decide)

/-- C9: a wrapper constructed with the default `splitter_type` value
`"Masking"` (the documented name of the bin-masking variant) hits the
invalid-splitter `ValueError` on every call to `fit`, for every
environment, prior state, matrix list and remaining constructor
arguments, because the dispatch accepts only `"Mask"` and `"Sample"`. -/
theorem default_splitter_type_fit_raises (env : FitEnv) (prev : NMFState)
    (X : List QMat) (ns : ℕ) (mf : ℚ) (ms bs : Bool) (rs nc : ℕ) :
    ({} : NMFMaskWrapper).splitter_type = "Masking"
    ∧ NMFMaskWrapper.fitRun env
        { splitter_type := ({} : NMFMaskWrapper).splitter_type, n_splits := ns,
          mask_fraction := mf, mask_signal := ms, balance_mask_signal := bs,
          random_state := rs, n_components := nc } prev X
      = (emptyNMFState, some invalidSplitterMessage) :=
  ⟨rfl, rfl⟩

/-! ## Claim C10: `_reconstruction_errors` is never appended to -/

theorem fitLoop_reconstruction_errors (env : FitEnv) (w : NMFMaskWrapper) (X : List QMat) :
    ∀ (splits : List (List MaskT × List MaskT)) (s : NMFState),
      ((splits.foldl (fun s p => (zip3 X p.1 p.2).foldl (fitStep env w) s) s)).reconstruction_errors
        = s.reconstruction_errors
  | [], _ => rfl
  | p :: ps, s => by
    rw [List.foldl_cons, fitLoop_reconstruction_errors env w X ps]
    exact foldl_fitStep_reconstruction_errors env w (zip3 X p.1 p.2) s

/-- C10: whenever `fit` completes successfully (no invalid-splitter
error), the internal `_reconstruction_errors` list is still empty —
`fit` initializes it but no branch ever appends to it — and a subsequent
`score` call therefore returns NaN (`-1 * np.nanmean([])`), not the
negated mean reconstruction error. -/
theorem fit_reconstruction_errors_empty (env : FitEnv) (w : NMFMaskWrapper)
    (prev : NMFState) (X : List QMat)
    (h : (w.fitRun env prev X).2 = none) :
    (w.fitRun env prev X).1.reconstruction_errors = []
    ∧ NMFMaskWrapper.scoreState (w.fitRun env prev X).1 = none := by
  have hre : (w.fitRun env prev X).1.reconstruction_errors = [] := by
    by_cases hM : w.splitter_type = "Mask"
    · have hfit : w.fitRun env prev X = (fitLoop env w X (maskingSplitsT env w X), none) := by
        simp [NMFMaskWrapper.fitRun, hM]
      rw [hfit]
      exact fitLoop_reconstruction_errors env w X (maskingSplitsT env w X) emptyNMFState
    · by_cases hS : w.splitter_type = "Sample"
      · have hfit : w.fitRun env prev X = (fitLoop env w X (sampleSplitsT env w X), none) := by
          simp [NMFMaskWrapper.fitRun, hM, hS]
        rw [hfit]
        exact fitLoop_reconstruction_errors env w X (sampleSplitsT env w X) emptyNMFState
      · exfalso
        simp [NMFMaskWrapper.fitRun, hM, hS] at h
  refine ⟨hre, ?_⟩
  simp [NMFMaskWrapper.scoreState, hre, nanmeanF, nanmean, fneg]

/-- C10 witness: a successful `"Sample"`-splitter fit at a concrete
input; the reconstruction-error list stays empty and `score` is NaN. -/
theorem fit_reconstruction_errors_empty_witness :
    (NMFMaskWrapper.fitRun envC
        { splitter_type := "Sample", n_splits := 1 } emptyNMFState [[[1]]]).1.reconstruction_errors
      = []
    ∧ NMFMaskWrapper.scoreState
        (NMFMaskWrapper.fitRun envC
          { splitter_type := "Sample", n_splits := 1 } emptyNMFState [[[1]]]).1 = none :=
  fit_reconstruction_errors_empty envC { splitter_type := "Sample", n_splits := 1 }
    emptyNMFState [[[1]]] (by simp [NMFMaskWrapper.fitRun])

/-! ## `_fit_and_score` (claim C4) -/

/-- Python list indexing: `l[i]` raises `IndexError` when out of range. -/
def pyGet {α : Type} (l : List α) (i : ℕ) : Except String α :=
  match l.get? i with
  | some a => Except.ok a
  | none => Except.error "IndexError"

/-- The named sub-scores dict built for `test_scores`/`train_scores`:
the base `"score"` entry plus the eight `_FIT_AND_SCORE` extra metrics,
each negated (`-1.0 * getattr(estimator, es)[i]`). -/
structure ScoreDict where
  score : FQ
  test_reconstruction_errors : FQ
  weight_orthogonality : ℚ
  sample_orthogonality : ℚ
  nonzero_component_fraction : ℚ
  neglog_ratio_train_test_reconstruction_error : FQ
  mean_weight_sparsity : ℚ
  mean_sample_sparsity : ℚ
  fraction_window_component : ℚ

/-- One per-split result dictionary of `_fit_and_score`.  The wall-clock
`fit_time`/`score_time` entries are not modelled. -/
structure FitRecord where
  test_scores : Option ScoreDict := none
  train_scores : Option ScoreDict := none
  n_test_samples : Option ℕ := none
  estimator : NMFModel
  fit_error : Option String := none

/-- Embedding of `_fit_and_score` (with `extra_scores` fixed to the
`_FIT_AND_SCORE` list, as at both call sites).  The estimator's `fit` is
attempted; if it raises, the handler builds `n_splits` placeholder
records — but each placeholder reads `estimator._models[i]`, so the
handler itself raises `IndexError` whenever fewer than `n_splits` models
were recorded before the failure.  On success, per-split records are
assembled by indexing the metric lists. -/
def fitAndScore (env : FitEnv) (w : NMFMaskWrapper) (prev : NMFState)
    (X : List QMat) : Except String (List FitRecord) :=
  let r := NMFMaskWrapper.fitRun env w prev X
  let s := r.1
  match r.2 with
  | some e =>
    (List.range w.n_splits).mapM (fun i => do
      let mdl ← pyGet s.models i
      pure { estimator := mdl, fit_error := some e : FitRecord })
  | none =>
    (List.range w.n_splits).mapM (fun i => do
      let tre ← pyGet s.test_reconstruction_errors i
      let trre ← pyGet s.train_reconstruction_errors i
      let nts ← pyGet s.test_samples i
      let mdl ← pyGet s.models i
      let wo ← pyGet s.weight_orthogonality i
      let so ← pyGet s.sample_orthogonality i
      let nzf ← pyGet s.nonzero_component_fraction i
      let nlr ← pyGet s.neglog_ratio_train_test_reconstruction_error i
      let mws ← pyGet s.mean_weight_sparsity i
      let mss ← pyGet s.mean_sample_sparsity i
      let fwc ← pyGet s.fraction_window_component i
      pure { test_scores := some ⟨fneg tre, fneg tre, -wo, -so, -nzf, fneg nlr, -mws, -mss, -fwc⟩
             train_scores := some ⟨fneg trre, fneg tre, -wo, -so, -nzf, fneg nlr, -mws, -mss, -fwc⟩
             n_test_samples := some nts
             estimator := mdl
             fit_error := none : FitRecord })

/-- C4 (code bug): with the default splitter type `"Masking"` the
estimator's `fit` raises the invalid-splitter `ValueError` after
resetting `_models` to `[]`; the exception handler of `_fit_and_score`
then evaluates `estimator._models[i]` for `i < n_splits = 2` and raises
`IndexError`, so the routine propagates an exception instead of
returning the claimed `n_splits` placeholder records. -/
theorem fit_and_score_propagates_indexerror :
    fitAndScore envC { splitter_type := "Masking", n_splits := 2 } emptyNMFState [[[1]]]
      = Except.error "IndexError" := rfl

/-! ## Claim C8: Optuna worker trial dispatch -/

/-- The per-worker trial budget dispatched by
`OptunaSearchReconstructionCV.fit`: `(self.n_iter // self.n_jobs) + 1`. -/
def optunaTrialsPerWorker (n_iter n_jobs : ℕ) : ℕ := n_iter / n_jobs + 1

/-- The list of trial budgets handed to the `n_jobs` workers by the
`parallel(delayed(optimize_optuna_study)(...) for i in range(self.n_jobs))`
dispatch loop. -/
def optunaWorkerDispatch (n_iter n_jobs : ℕ) : List ℕ :=
  (List.range n_jobs).map (fun _ => optunaTrialsPerWorker n_iter n_jobs)

/-- The `ceil(n_iter / n_workers)` quantity named by the claim. -/
def ceilDivSpec (a b : ℕ) : ℕ := (a + b - 1) / b

/-- C8 counterexample: with `n_iter = 4` and `n_jobs = 2` each worker is
dispatched `4 // 2 + 1 = 3` trials, while `ceil(4 / 2) = 2`. -/
theorem optuna_dispatch_claim_false :
    optunaWorkerDispatch 4 2 = [3, 3]
    ∧ ceilDivSpec 4 2 = 2
    ∧ optunaTrialsPerWorker 4 2 ≠ ceilDivSpec 4 2 := by
  refine ⟨rfl, rfl, by decide⟩

/-- C8 amended: each of the `n_jobs` workers is dispatched exactly
`n_iter // n_jobs + 1` trials; this equals `ceil(n_iter / n_jobs)` when
`n_jobs` does not divide `n_iter`, and exceeds it by exactly one when it
does. -/
theorem optuna_dispatch_amended (n m t : ℕ) (hm : 1 ≤ m)
    (ht : t ∈ optunaWorkerDispatch n m) :
    t = n / m + 1
    ∧ t = (if m ∣ n then ceilDivSpec n m + 1 else ceilDivSpec n m) := by
  have htv : t = n / m + 1 := by
    simp only [optunaWorkerDispatch, optunaTrialsPerWorker, List.mem_map,
      List.mem_range] at ht
    obtain ⟨i, _, hi⟩ := ht
    exact hi.symm
  refine ⟨htv, ?_⟩
  have hceil : ceilDivSpec n m = if m ∣ n then n / m else n / m + 1 := by
    by_cases hd : m ∣ n
    · rw [if_pos hd]
      obtain ⟨q, rfl⟩ := hd
      have h2 : (m * q + m - 1) / m = q := by
        rw [Nat.add_sub_assoc (by omega : 1 ≤ m) (m * q), Nat.add_comm (m * q) (m - 1),
          Nat.add_mul_div_left _ _ (by omega : 0 < m),
          Nat.div_eq_of_lt (by omega : m - 1 < m), Nat.zero_add]
      rw [ceilDivSpec, h2, Nat.mul_div_cancel_left q (by omega : 0 < m)]
    · rw [if_neg hd]
      have hn : n ≠ 0 := by
        intro h0; exact hd (h0 ▸ dvd_zero m)
      have h1 : n + m - 1 = (n - 1) + m := by omega
      have h2 : (n - 1 + m) / m = (n - 1) / m + 1 :=
        Nat.add_div_right _ (by omega : 0 < m)
      have h3 : n / m = (n - 1) / m := by
        have hsucc : (n - 1) + 1 = n := by omega
        have hdiv := Nat.succ_div (n - 1) m
        rw [hsucc, if_neg hd] at hdiv
        simpa using hdiv
      rw [ceilDivSpec, h1, h2, h3]
  rw [htv, hceil]
  by_cases hd : m ∣ n
  · simp [hd]
  · simp [hd]

/-- C8 witness: with `n_iter = 5` and `n_jobs = 2` the dispatched budget
3 equals `ceil(5/2) = 3` (2 does not divide 5). -/
theorem optuna_dispatch_amended_witness :
    3 = 5 / 2 + 1
    ∧ 3 = (if 2 ∣ 5 then ceilDivSpec 5 2 + 1 else ceilDivSpec 5 2) :=
  optuna_dispatch_amended 5 2 3 (by decide) (by decide)

/-! ## Claim C7: reconstruction error on an all-False mask -/

/-- An all-False boolean mask with the shape of `m`. -/
def allFalseLike (m : QMat) : Mask2 := m.map (fun row => row.map (fun _ => false))

theorem zipWith_if_false_row (row : List ℚ) :
    List.zipWith (fun x b => if b then 0 else x) row (row.map (fun _ => false)) = row := by
  induction row with
  | nil => rfl
  | cons a t ih =>
    simp only [List.map_cons, List.zipWith_cons_cons]
    rw [ih]
    simp

theorem mask_train_allFalse :
    ∀ m : QMat, MzBinMaskingSplitter.mask_train_matrix m (allFalseLike m) = m
  | [] => rfl
  | r :: rs => by
    simp only [MzBinMaskingSplitter.mask_train_matrix, allFalseLike, List.map_cons,
      List.zipWith_cons_cons]
    rw [zipWith_if_false_row r]
    exact congrArg (List.cons r) (mask_train_allFalse rs)

theorem filterMap_zip_false (l : List ℚ) :
    ∀ (bs : List Bool), (∀ b ∈ bs, b = false) →
      (l.zip bs).filterMap (fun p => if p.2 then some p.1 else none) = [] := by
  induction l with
  | nil => intro bs _; simp
  | cons a t ih =>
    intro bs hb
    cases bs with
    | nil => simp
    | cons b bs' =>
      have hbf : b = false := hb b (List.mem_cons_self b bs')
      subst hbf
      simpa using ih bs' (fun x hx => hb x (List.mem_cons_of_mem _ hx))

theorem maskSelect_allFalse (m : QMat) : maskSelect m (allFalseLike m) = [] := by
  apply filterMap_zip_false
  intro b hb
  simp only [flattenM, allFalseLike, List.mem_flatten, List.mem_map] at hb
  obtain ⟨row, ⟨r0, _, rfl⟩, hbrow⟩ := hb
  simp only [List.mem_map] at hbrow
  obtain ⟨_, _, rfl⟩ := hbrow
  rfl

theorem rowSelect_replicate_false (m : QMat) :
    ∀ n : ℕ, rowSelect m (List.replicate n false) = [] := by
  induction m with
  | nil => intro n; cases n <;> rfl
  | cons r rs ih =>
    intro n
    cases n with
    | zero => rfl
    | succ k => simpa [rowSelect, List.replicate_succ] using ih k

theorem zipWith_self_diff_sq : ∀ l : List ℚ,
    List.zipWith (fun a b => (a - b) ^ 2) l l = l.map (fun _ => (0 : ℚ))
  | [] => rfl
  | a :: t => by
    simp only [List.zipWith_cons_cons, List.map_cons]
    rw [zipWith_self_diff_sq t]
    norm_num

theorem map_zero_sum : ∀ l : List ℚ, (l.map (fun _ => (0 : ℚ))).sum = 0
  | [] => rfl
  | a :: t => by simp [map_zero_sum t]

/-- C7 counterexample: on the 1×1 matrix `[[1]]` with the all-False
mask, `mask_train_matrix` leaves the matrix unchanged as claimed, but
`reconstruction_error` with `m_reconstructed = m` is `np.nanmean` over
an empty selection — NaN, not zero. -/
theorem mask_recon_allfalse_claim_false :
    MzBinMaskingSplitter.mask_train_matrix [[(1 : ℚ)]] [[false]] = [[1]]
    ∧ MzBinMaskingSplitter.reconstruction_error [[(1 : ℚ)]] [[(1 : ℚ)]] [[false]] = none
    ∧ MzBinMaskingSplitter.reconstruction_error [[(1 : ℚ)]] [[(1 : ℚ)]] [[false]] ≠ some 0 := by
  refine ⟨rfl, rfl, ?_⟩
  intro h
  exact Option.noConfusion h

/-- C7 amended: `mask_train_matrix` with an all-False mask returns `m`
unchanged, but `reconstruction_error` on that all-False mask is NaN
(`none`) for the bin-masking splitter and likewise NaN for the
scan-sampling splitter; the error is zero (`some 0`) with
`m_reconstructed = m` exactly on masks that select at least one entry
(bin-masking splitter). -/
theorem mask_recon_allfalse_amended (m : QMat) (mask : Mask2) (model : NMFModel)
    (hsel : maskSelect m mask ≠ []) :
    MzBinMaskingSplitter.mask_train_matrix m (allFalseLike m) = m
    ∧ MzBinMaskingSplitter.reconstruction_error m m (allFalseLike m) = none
    ∧ MzBinSampleSplitter.reconstruction_error m m (List.replicate m.length false) model = none
    ∧ MzBinMaskingSplitter.reconstruction_error m m mask = some 0 := by
  refine ⟨mask_train_allFalse m, ?_, ?_, ?_⟩
  · rw [MzBinMaskingSplitter.reconstruction_error, maskSelect_allFalse m]
    rfl
  · rw [MzBinSampleSplitter.reconstruction_error]
    rw [rowSelect_replicate_false m m.length]
    simp [matSum, flattenM, nanmean]
  · rw [MzBinMaskingSplitter.reconstruction_error, zipWith_self_diff_sq]
    cases hm : maskSelect m mask with
    | nil => exact absurd hm hsel
    | cons a t =>
      simp [nanmean, map_zero_sum]

/-- C7 witness: the amended theorem at the 1×1 matrix `[[1]]` and the
mask `[[true]]`, which selects one entry. -/
theorem mask_recon_allfalse_amended_witness :
    MzBinMaskingSplitter.mask_train_matrix [[(1 : ℚ)]] (allFalseLike [[(1 : ℚ)]]) = [[(1 : ℚ)]]
    ∧ MzBinMaskingSplitter.reconstruction_error [[(1 : ℚ)]] [[(1 : ℚ)]]
        (allFalseLike [[(1 : ℚ)]]) = none
    ∧ MzBinSampleSplitter.reconstruction_error [[(1 : ℚ)]] [[(1 : ℚ)]]
        (List.replicate [[(1 : ℚ)]].length false) ⟨[[0]], fun x => x⟩ = none
    ∧ MzBinMaskingSplitter.reconstruction_error [[(1 : ℚ)]] [[(1 : ℚ)]] [[true]] = some 0 :=
  mask_recon_allfalse_amended [[(1 : ℚ)]] [[true]] ⟨[[0]], fun x => x⟩ (by decide)

/-! ## Claim C6: `pick_parameters_harmonic_mean` -/

/-- Minimum entry of a numpy array (`v.min()`); 0 for the empty list
(numpy raises there, but all uses are guarded by nonemptiness). -/
def listMin : List ℚ → ℚ
  | [] => 0
  | h :: t => t.foldl min h

/-- Maximum entry of a numpy array (`v.max()`). -/
def listMax : List ℚ → ℚ
  | [] => 0
  | h :: t => t.foldl max h

/-- The min-max scaling as written in the source:
`(v - v.min()) / (v - v.min()).max()`. -/
def minmaxCode (v : List ℚ) : List ℚ :=
  (v.map (fun x => x - listMin v)).map
    (fun x => x / listMax (v.map (fun y => y - listMin v)))

/-- The min-max normalization as worded by the spec:
`(v - min) / (max - min)`. -/
def minmaxSpec (v : List ℚ) : List ℚ :=
  v.map (fun x => (x - listMin v) / (listMax v - listMin v))

/-- The final harmonic-mean expression over the normalized columns:
`len(parameters) / (1.0 / (np.vstack(columns) + constant)).sum(axis=0)`. -/
def harmonicOfCols (normed : List (List ℚ)) (constant : ℚ) : List ℚ :=
  (List.range (normed.headD []).length).map
    (fun i => (normed.length : ℚ) / ((normed.map (fun c => 1 / (c.getD i 0 + constant))).sum))

/-- Embedding of `pick_parameters_harmonic_mean`: each objective column
is re-scored through `OptimizationParameters.score`, min-max scaled, and
combined by the per-candidate harmonic mean. -/
def pick_parameters_harmonic_mean (op : OptimizationParameters)
    (cols : List (String × List ℚ)) (constant : ℚ) : List ℚ :=
  harmonicOfCols ((cols.map (fun kv => kv.2.map (op.score kv.1))).map minmaxCode) constant

/-- The same selector with the normalization written as the spec words
it (`(v - min) / (max - min)`), for the refinement comparison. -/
def harmonic_mean_spec (op : OptimizationParameters)
    (cols : List (String × List ℚ)) (constant : ℚ) : List ℚ :=
  harmonicOfCols ((cols.map (fun kv => kv.2.map (op.score kv.1))).map minmaxSpec) constant

theorem foldl_max_sub (c : ℚ) : ∀ (l : List ℚ) (a : ℚ),
    (l.map (fun x => x - c)).foldl max (a - c) = l.foldl max a - c
  | [], _ => rfl
  | x :: xs, a => by
    simp only [List.map_cons, List.foldl_cons]
    rw [max_sub_sub_right a x c]
    exact foldl_max_sub c xs (max a x)

theorem listMax_shift (v : List ℚ) (hv : v ≠ []) (c : ℚ) :
    listMax (v.map (fun x => x - c)) = listMax v - c := by
  cases v with
  | nil => exact absurd rfl hv
  | cons a t =>
    simp only [List.map_cons, listMax]
    exact foldl_max_sub c t a

theorem minmax_eq (v : List ℚ) (hv : v ≠ []) : minmaxCode v = minmaxSpec v := by
  unfold minmaxCode minmaxSpec
  rw [listMax_shift v hv (listMin v), List.map_map]
  rfl

theorem minmaxCode_length (v : List ℚ) : (minmaxCode v).length = v.length := by
  simp [minmaxCode]

theorem harmonicOfCols_getD (normed : List (List ℚ)) (constant : ℚ) (i : ℕ)
    (hi : i < (normed.headD []).length) :
    (harmonicOfCols normed constant).getD i 0
      = (normed.length : ℚ) / ((normed.map (fun c => 1 / (c.getD i 0 + constant))).sum) := by
  unfold harmonicOfCols
  rw [List.getD_eq_getElem?_getD, List.getElem?_map, List.getElem?_range hi]
  rfl

/-- C6: the harmonic-mean selector min-max normalizes each (re-scored)
objective column independently — the source expression
`(v - min) / max(v - min)` coincides with the spec's
`(v - min) / (max - min)` — and returns per candidate
`n_objectives / Σ (1 / (normalized + ε))`; consequently, for two
objectives, a candidate `i` whose two normalized values are both 1
scores strictly higher than a candidate `j` with normalized values 1
and 0 (for any ε > 0). -/
theorem pick_parameters_harmonic_mean_correct
    (op : OptimizationParameters) (ε : ℚ) (hε : 0 < ε)
    (cols : List (String × List ℚ)) (hc : ∀ kv ∈ cols, kv.2 ≠ [])
    (k₁ k₂ : String) (c₁ c₂ : List ℚ) (i j : ℕ)
    (hi : i < c₁.length) (hj : j < c₁.length)
    (h1i : (minmaxCode (c₁.map (op.score k₁))).getD i 0 = 1)
    (h2i : (minmaxCode (c₂.map (op.score k₂))).getD i 0 = 1)
    (h1j : (minmaxCode (c₁.map (op.score k₁))).getD j 0 = 1)
    (h2j : (minmaxCode (c₂.map (op.score k₂))).getD j 0 = 0) :
    pick_parameters_harmonic_mean op cols ε = harmonic_mean_spec op cols ε
    ∧ (pick_parameters_harmonic_mean op [(k₁, c₁), (k₂, c₂)] ε).getD j 0
        < (pick_parameters_harmonic_mean op [(k₁, c₁), (k₂, c₂)] ε).getD i 0 := by
  constructor
  · unfold pick_parameters_harmonic_mean harmonic_mean_spec
    congr 1
    apply List.map_congr_left
    intro a ha
    simp only [List.mem_map] at ha
    obtain ⟨kv, hkv, rfl⟩ := ha
    exact minmax_eq _ (by
      intro hnil
      exact hc kv hkv (List.map_eq_nil_iff.mp hnil))
  · set N₁ := minmaxCode (c₁.map (op.score k₁)) with hN₁
    set N₂ := minmaxCode (c₂.map (op.score k₂)) with hN₂
    have hpick : pick_parameters_harmonic_mean op [(k₁, c₁), (k₂, c₂)] ε
        = harmonicOfCols [N₁, N₂] ε := rfl
    have hhead : ([N₁, N₂].headD []).length = c₁.length := by
      simp [hN₁, minmaxCode_length]
    have hιi : i < ([N₁, N₂].headD []).length := by rw [hhead]; exact hi
    have hιj : j < ([N₁, N₂].headD []).length := by rw [hhead]; exact hj
    rw [hpick, harmonicOfCols_getD [N₁, N₂] ε i hιi, harmonicOfCols_getD [N₁, N₂] ε j hιj]
    simp only [List.map_cons, List.map_nil, List.sum_cons, List.sum_nil, List.length_cons,
      List.length_nil]
    rw [h1i, h2i, h1j, h2j]
    have h1pos : (0 : ℚ) < 1 + ε := by linarith
    have hd1 : (0 : ℚ) < 1 / (1 + ε) := by positivity
    have hde : (0 : ℚ) < 1 / (0 + ε) := by positivity
    have hlt : 1 / (1 + ε) < 1 / (0 + ε) := by
      rw [zero_add]
      exact one_div_lt_one_div_of_lt hε (by linarith)
    apply div_lt_div_of_pos_left (by norm_num) (by linarith) (by linarith)

/-- C6 witness: columns `[0, 5, 5]` and `[0, 7, 0]` (metric names not in
the target table, so re-scoring passes them through) normalize to
`[0, 1, 1]` and `[0, 1, 0]`; candidate 1 (both normalized values 1)
scores strictly higher than candidate 2 (values 1 and 0), and the
source normalization agrees with the spec formula. -/
theorem pick_parameters_harmonic_mean_correct_witness :
    pick_parameters_harmonic_mean {} [("a", [0, 5, 5]), ("b", [0, 7, 0])] (1/1000)
      = harmonic_mean_spec {} [("a", [0, 5, 5]), ("b", [0, 7, 0])] (1/1000)
    ∧ (pick_parameters_harmonic_mean {} [("a", [0, 5, 5]), ("b", [0, 7, 0])] (1/1000)).getD 2 0
        < (pick_parameters_harmonic_mean {} [("a", [0, 5, 5]), ("b", [0, 7, 0])] (1/1000)).getD 1 0 :=
  have hsa : ∀ x : ℚ, ({} : OptimizationParameters).score "a" x = x := fun x => by
    simp [OptimizationParameters.score, lookupQ, OptimizationParameters.scoresTable]
  have hsb : ∀ x : ℚ, ({} : OptimizationParameters).score "b" x = x := fun x => by
    simp [OptimizationParameters.score, lookupQ, OptimizationParameters.scoresTable]
  have hma : [(0 : ℚ), 5, 5].map (({} : OptimizationParameters).score "a") = [0, 5, 5] := by
    simp [hsa]
  have hmb : [(0 : ℚ), 7, 0].map (({} : OptimizationParameters).score "b") = [0, 7, 0] := by
    simp [hsb]
  pick_parameters_harmonic_mean_correct {} (1/1000) (by norm_num)
    [("a", [0, 5, 5]), ("b", [0, 7, 0])] (by simp)
    "a" "b" [0, 5, 5] [0, 7, 0] 1 2 (by norm_num) (by norm_num)
    (by rw [hma]; norm_num [minmaxCode, listMin, listMax, List.getD, min_def, max_def])
    (by rw [hmb]; norm_num [minmaxCode, listMin, listMax, List.getD, min_def, max_def])
    (by rw [hma]; norm_num [minmaxCode, listMin, listMax, List.getD, min_def, max_def])
    (by rw [hmb]; norm_num [minmaxCode, listMin, listMax, List.getD, min_def, max_def])

end FragmentFeatureDetection
